import Mathlib

/-!
# Verification of the pism-tutorials configuration and run-loop helpers

This file embeds, in Lean 4, the data-transformation code of the
`pism-tutorials` repository: the notebook-defined `dicts2str` renderer, the
MISMIP+ bed-shape functions `Bx`/`By`, and the Greenland/sector run loops,
together with the `pism_tutorials.utils` / `pism_tutorials.domain` helpers
(`merge_dicts`, `dict2str`, `sort_dict_by_key`, `get_bounds`).  The package
helpers are not part of the repository snapshot, so they are modelled from the
specification document; every such definition is marked `Modelled from the
spec:` in its doc comment.  Theorems below settle the specification's claims
about these functions.
-/

namespace PismTutorials

/-- A runtime configuration value.  In the notebooks values are Python scalars,
strings, `Path`s or `None`; everything except `None` is used only through its
string form (f-string interpolation), so we represent a non-`None` value by
that string form and keep `None` separate. -/
inductive Value where
  | vnone : Value
  | vstr : String → Value
deriving DecidableEq, Repr

/-- The string a value contributes under Python f-string interpolation:
`None` interpolates as `"None"`, everything else as its string form. -/
def Value.render : Value → String
  | Value.vnone => "None"
  | Value.vstr s => s

/-- Whether a value is "empty or None" (the skipping convention of the spec's
`dict2str`): Python `None`, or the empty string. -/
def Value.isBlank : Value → Bool
  | Value.vnone => true
  | Value.vstr s => s.isEmpty

/-- A Python `dict` from string keys to configuration values, in insertion
order.  Python dictionaries have unique keys; where a claim needs this we add
it as a `Nodup` hypothesis on the mapped keys. -/
abbrev Dict := List (String × Value)

/-- Key lookup in a dictionary: the value of the first entry with the given
key (for well-formed dictionaries keys are unique, so the only entry). -/
def dlookup (k : String) : Dict → Option Value
  | [] => none
  | kv :: rest => if kv.1 = k then some kv.2 else dlookup k rest

/-- Left-biased choice on optional values: the first operand if present,
otherwise the second. -/
def oor (a b : Option Value) : Option Value :=
  match a with
  | some v => some v
  | none => b

/-- Python's `d.update(e)` (equivalently `{**d, **e}`): keys of `d` keep their
position with values overridden by `e` where present, and keys of `e` that are
new are appended in `e`'s order. -/
def dictUpdate (d e : Dict) : Dict :=
  d.map (fun kv => (kv.1, (dlookup kv.1 e).getD kv.2)) ++
    e.filter (fun kv => (dlookup kv.1 d).isNone)

/-- Modelled from the spec: `merge_dicts` from `pism_tutorials.utils` is not
under `src/` (the notebooks only import and call it).  Per the spec it merges
an ordered sequence of key-value mappings into one, "with later entries
overriding earlier ones on key collision" (last-write-wins), i.e. it applies
Python `dict.update` successively to an initially empty dictionary. -/
def merge_dicts (ds : List Dict) : Dict := ds.foldl dictUpdate []

/-- The spec's words for the merge result: for a key `k`, the value from the
last input dictionary that contains `k` (and no value if none does). -/
def lastWins (k : String) : List Dict → Option Value
  | [] => none
  | d :: ds => oor (lastWins k ds) (dlookup k d)

/-- The token a single dictionary entry renders to, Python `f"-{k} {v}"`. -/
def entryToken (kv : String × Value) : String :=
  "-" ++ kv.1 ++ " " ++ kv.2.render

/-- The inner helper `d2s` of `dicts2str` (notebook `1_Getting_Started`):
`" ".join(f"-{k} {v}" for k, v in d.items())`.  Every entry is rendered;
nothing is skipped. -/
def d2s (d : Dict) : String :=
  String.intercalate " " (d.map entryToken)

/-- `dicts2str` as defined in the `1_Getting_Started` notebook:
`" ".join(d2s(d) for d in args if d)` — renders each truthy (non-empty)
dictionary with `d2s` and joins the renderings with single spaces.  Empty
dictionaries are skipped; empty *values* are not. -/
def dicts2str (args : List Dict) : String :=
  String.intercalate " " ((args.filter (fun d => !d.isEmpty)).map d2s)

/-- Modelled from the spec: `dict2str` from `pism_tutorials.utils` is not
under `src/` (the notebooks only import and call it).  Per the spec it renders
a dictionary "to a single string of `-key value` tokens for CLI consumption,
skipping keys whose value is empty/None per convention". -/
def dict2str (d : Dict) : String :=
  String.intercalate " " ((d.filter (fun kv => ! kv.2.isBlank)).map entryToken)

/-- Modelled from the spec: `sort_dict_by_key` from `pism_tutorials.utils` is
not under `src/` (the notebooks only import and call it).  Per the spec it
sorts the dictionary "by key for reproducible output", i.e. reorders the
entries into ascending key order. -/
def sort_dict_by_key (d : Dict) : Dict :=
  List.insertionSort (fun a b : String × Value => a.1 ≤ b.1) d

/-- The command string built by the notebooks for every simulation run:
`cmd = f"mpirun -np {n} pism " + run_str` with
`run_str = dict2str(sort_dict_by_key(run_dict))`. -/
def mkCmd (n : Nat) (run_dict : Dict) : String :=
  "mpirun -np " ++ toString n ++ " pism " ++ dict2str (sort_dict_by_key run_dict)

/-- The two-key dictionary passed to `run_dict.update` in each iteration of
the Greenland run loop (notebook `2_...`, cell with `for rcp, climate_file in
zip([26, 85], climate_files)`): the climate forcing file and the extra output
file `output_dir / f"spatial_g{resolution}_rcp_{rcp}_{start}_{end}.nc"`. -/
def greenlandUpdate (resolution start finish rcp climate_file : String) : Dict :=
  [("surface.ismip6.file", Value.vstr climate_file),
   ("output.extra.file", Value.vstr
     ("test_run/spatial_g" ++ resolution ++ "_rcp_" ++ rcp ++ "_" ++ start ++ "_" ++
       finish ++ ".nc"))]

/-- The successive states of `run_dict` inside the Greenland run loop: one
state per `(rcp, climate_file)` pair, each obtained by updating the previous
state with the two-key dictionary of that iteration. -/
def greenlandStates (resolution start finish : String) (d : Dict) :
    List (String × String) → List Dict
  | [] => []
  | p :: rest =>
      let d' := dictUpdate d (greenlandUpdate resolution start finish p.1 p.2)
      d' :: greenlandStates resolution start finish d' rest

/-- The Greenland run loop with the shell made explicit: each iteration
updates `run_dict`, builds `cmd` and hands it to the shell (`! $cmd`),
recording the command and the shell's exit status.  The status is never
inspected: the loop continues unconditionally. -/
def greenlandRun (shell : String → Int) (resolution start finish : String) (n : Nat)
    (d : Dict) : List (String × String) → List (String × Int)
  | [] => []
  | p :: rest =>
      let d' := dictUpdate d (greenlandUpdate resolution start finish p.1 p.2)
      let cmd := mkCmd n d'
      (cmd, shell cmd) :: greenlandRun shell resolution start finish n d' rest

/-- The three-key file dictionary of the sector run loop (domain notebook):
`{"grid.file": f"domain_{name}.nc", "output.file": state_file,
"output.extra.file": spatial_file}`. -/
def sectorFiles (resolution name : String) (s_id : Nat) : Dict :=
  [("grid.file", Value.vstr ("domain_" ++ name ++ ".nc")),
   ("output.file", Value.vstr
     ("testing_" ++ resolution ++ "/state_g" ++ resolution ++ "_sector_" ++ name ++
       "_id_" ++ toString s_id ++ ".nc")),
   ("output.extra.file", Value.vstr
     ("testing_" ++ resolution ++ "/spatial_g" ++ resolution ++ "_sector_" ++ name ++
       "_id_" ++ toString s_id ++ ".nc"))]

/-- Inner loop of the sector run (over parameter samples): updates `run_dict`
with the sample, then with the file dictionary, shells out, and threads the
mutated dictionary on; returns the recorded `(cmd, status)` pairs and the
final dictionary state. -/
def sectorRunInner (shell : String → Int) (resolution name : String) (n : Nat) :
    Dict → Nat → List Dict → List (String × Int) × Dict
  | d, _, [] => ([], d)
  | d, s_id, sample :: rest =>
      let d1 := dictUpdate d sample
      let d2 := dictUpdate d1 (sectorFiles resolution name s_id)
      let cmd := mkCmd n d2
      let st := shell cmd
      let next := sectorRunInner shell resolution name n d2 (s_id + 1) rest
      ((cmd, st) :: next.1, next.2)

/-- Outer loop of the sector run (over basin domains), threading the mutated
`run_dict` across domains exactly as the notebook does. -/
def sectorRun (shell : String → Int) (resolution : String) (n : Nat) :
    Dict → List String → List Dict → List (String × Int)
  | _, [], _ => []
  | d, name :: names, samples =>
      let inner := sectorRunInner shell resolution name n d 0 samples
      inner.1 ++ sectorRun shell resolution n inner.2 names samples

/-- The spec's words for rendering one dictionary: "a single string of
`-key value` tokens", i.e. the tokens `-k1 v1` … `-kn vn` of the entries in
insertion order, joined by single spaces. -/
def specRenderDict (d : Dict) : String :=
  String.intercalate " " (d.map entryToken)

/-- The spec's words for rendering several dictionary arguments: each argument
rendered in order, the renderings concatenated with a single space between
them. -/
def specRenderArgs (args : List Dict) : String :=
  String.intercalate " " (args.map specRenderDict)

/-- Rounding an integer coordinate down to the grid of spacing `delta`
(`np.floor(a / delta) * delta`). -/
def alignDown (delta a : Int) : Int := delta * (a.ediv delta)

/-- Rounding an integer coordinate up to the grid of spacing `delta`
(`np.ceil(a / delta) * delta`). -/
def alignUp (delta a : Int) : Int := -(delta * ((-a).ediv delta))

/-- Modelled from the spec: `get_bounds` from `pism_tutorials.domain` is not
under `src/` (the notebooks only import and call it).  Per the spec it
computes, from a reference dataset's coordinate extent `[xmin, xmax]`, a set
of allowed resolution multipliers of a base resolution and an optional buffer
distance, "an outward-expanded bounding box whose edges are aligned to the
coarsest permitted grid spacing, optionally padded by a buffer distance": the
buffered extent is expanded outward to the grid of spacing
`max(multipliers) * base_resolution`. -/
def get_bounds (xmin xmax base_resolution : Int) (multipliers : List Int)
    (buffer : Int) : Int × Int :=
  let delta := (multipliers.foldr max 1) * base_resolution
  (alignDown delta (xmin - buffer), alignUp delta (xmax + buffer))

/-- The multiplier set of the domain notebook: "the resolutions that you want
supported: 150, 300, 450, 600, 900, 1200, 1500, 1800, 2400, 3000, 3600, and
4500m" over the 150 m BedMachine base resolution. -/
def bedmachineMultipliers : List Int := [1, 2, 3, 4, 6, 8, 10, 12, 16, 20, 24, 30, 40, 60]

/-- MISMIP+ bed default parameter `B0` (m). -/
def B0 : ℝ := -150

/-- MISMIP+ bed default parameter `B2` (m). -/
def B2 : ℝ := -728.8

/-- MISMIP+ bed default parameter `B4` (m). -/
def B4 : ℝ := 343.91

/-- MISMIP+ bed default parameter `B6` (m). -/
def B6 : ℝ := -50.57

/-- MISMIP+ bed default parameter `x_bar` (m). -/
def x_bar : ℝ := 300e3

/-- MISMIP+ channel default half-width parameter `Ly` (m). -/
def Ly : ℝ := 80e3

/-- MISMIP+ channel default depth parameter `dc` (m). -/
def dc : ℝ := 500

/-- MISMIP+ channel default wall-steepness parameter `fc` (m). -/
def fc : ℝ := 4e3

/-- MISMIP+ channel default half-width parameter `wc` (m). -/
def wc : ℝ := 24e3

/-- The MISMIP+ along-flow bed profile `Bx` of the `4_A_MISMIP+` notebook with
its default parameters, over the reals. -/
noncomputable def Bx (x : ℝ) : ℝ :=
  B0 + B2 * (x / x_bar) ^ 2 + B4 * (x / x_bar) ^ 4 + B6 * (x / x_bar) ^ 6

/-- The MISMIP+ across-flow channel profile `By` of the `4_A_MISMIP+` notebook
with its default parameters, over the reals. -/
noncomputable def By (y : ℝ) : ℝ :=
  dc / (1 + Real.exp (-2 * (y - Ly / 2 - wc) / fc)) +
    dc / (1 + Real.exp (2 * (y - Ly / 2 + wc) / fc))

theorem oor_none_left (b : Option Value) : oor none b = b := rfl

theorem oor_none_right (a : Option Value) : oor a none = a := by
  cases a <;> rfl

theorem dlookup_append (k : String) (l₁ l₂ : Dict) :
    dlookup k (l₁ ++ l₂) = oor (dlookup k l₁) (dlookup k l₂) := by
  induction l₁ with
  | nil => simp [dlookup, oor]
  | cons kv rest ih =>
      by_cases h : kv.1 = k <;> simp [dlookup, h, oor, ih]

theorem dlookup_map_override (k : String) (d : Dict) (f : String → Value → Value) :
    dlookup k (d.map (fun kv => (kv.1, f kv.1 kv.2))) = (dlookup k d).map (f k) := by
  induction d with
  | nil => simp [dlookup]
  | cons kv rest ih =>
      by_cases h : kv.1 = k <;> simp [dlookup, h, ih]

theorem dlookup_filter_true (k : String) (l : Dict) (p : String × Value → Bool)
    (h : ∀ v, p (k, v) = true) : dlookup k (l.filter p) = dlookup k l := by
  induction l with
  | nil => simp
  | cons kv rest ih =>
      by_cases hk : kv.1 = k
      · have hp : p kv = true := by
          have : kv = (k, kv.2) := by rw [← hk]
          rw [this]; exact h kv.2
        simp [List.filter_cons, hp, dlookup, hk, ih]
      · cases hp : p kv <;> simp [List.filter_cons, hp, dlookup, hk, ih]

theorem dlookup_dictUpdate (k : String) (d e : Dict) :
    dlookup k (dictUpdate d e) = oor (dlookup k e) (dlookup k d) := by
  unfold dictUpdate
  rw [dlookup_append, dlookup_map_override k d (fun k' v => (dlookup k' e).getD v)]
  cases hd : dlookup k d with
  | some v => cases he : dlookup k e <;> simp [oor, he]
  | none =>
      rw [dlookup_filter_true k _ _ (fun v => by simp [hd])]
      cases he : dlookup k e <;> simp [oor]

theorem dlookup_merge_foldl (k : String) (ds : List Dict) (a : Dict) :
    dlookup k (ds.foldl dictUpdate a) = oor (lastWins k ds) (dlookup k a) := by
  induction ds generalizing a with
  | nil => simp [lastWins, oor]
  | cons d ds ih =>
      simp only [List.foldl_cons, lastWins]
      rw [ih, dlookup_dictUpdate]
      cases lastWins k ds <;> cases dlookup k d <;> simp [oor]

theorem dlookup_eq_none_iff (k : String) (d : Dict) :
    dlookup k d = none ↔ k ∉ d.map Prod.fst := by
  induction d with
  | nil => simp [dlookup]
  | cons kv rest ih =>
      simp only [dlookup, List.map_cons, List.mem_cons]
      by_cases h : kv.1 = k
      · simp [h]
      · rw [if_neg h, ih]
        constructor
        · intro hn hc
          rcases hc with hc | hc
          · exact h hc.symm
          · exact hn hc
        · intro hn hc
          exact hn (Or.inr hc)

theorem keys_dictUpdate_nodup (d e : Dict)
    (hd : (d.map Prod.fst).Nodup) (he : (e.map Prod.fst).Nodup) :
    ((dictUpdate d e).map Prod.fst).Nodup := by
  unfold dictUpdate
  rw [List.map_append]
  have hmap : ((d.map (fun kv => (kv.1, (dlookup kv.1 e).getD kv.2))).map Prod.fst)
      = d.map Prod.fst := by
    simp [List.map_map, Function.comp]
  apply List.Nodup.append
  · rw [hmap]; exact hd
  · exact he.sublist ((List.filter_sublist e).map Prod.fst)
  · rw [hmap]
    intro k hk1 hk2
    rcases List.mem_map.mp hk2 with ⟨kv, hkv, hfst⟩
    have hp := List.of_mem_filter hkv
    rw [hfst] at hp
    have : dlookup k d = none := by
      cases hval : dlookup k d <;> simp [hval] at hp ⊢
    exact (dlookup_eq_none_iff k d).mp this hk1

theorem merge_foldl_nodup (ds : List Dict) (a : Dict)
    (ha : (a.map Prod.fst).Nodup) (h : ∀ d ∈ ds, (d.map Prod.fst).Nodup) :
    (((ds.foldl dictUpdate a)).map Prod.fst).Nodup := by
  induction ds generalizing a with
  | nil => exact ha
  | cons d ds ih =>
      exact ih (dictUpdate a d)
        (keys_dictUpdate_nodup a d ha (h d (by simp)))
        (fun d' hd' => h d' (by simp [hd']))

/-- C1: for every ordered sequence of dictionaries passed to `merge_dicts`,
the result maps each key occurring in any input to exactly one value (its keys
are unique), namely the value from the last input dictionary containing that
key (last-write-wins). -/
theorem merge_dicts_last_write_wins (ds : List Dict)
    (h : ∀ d ∈ ds, (d.map Prod.fst).Nodup) :
    ((merge_dicts ds).map Prod.fst).Nodup ∧
      ∀ k, dlookup k (merge_dicts ds) = lastWins k ds := by
  refine ⟨merge_foldl_nodup ds [] (by simp) h, fun k => ?_⟩
  have hfold := dlookup_merge_foldl k ds []
  rw [merge_dicts]
  rw [hfold]
  exact oor_none_right _

/-- C1 witness: two concrete dictionaries sharing key `"k"` with different
values; the merged result holds the second dictionary's value. -/
theorem merge_dicts_last_write_wins_witness :
    (((merge_dicts [[("k", Value.vstr "1")], [("k", Value.vstr "2")]]).map Prod.fst).Nodup ∧
      ∀ k, dlookup k (merge_dicts [[("k", Value.vstr "1")], [("k", Value.vstr "2")]]) =
        lastWins k [[("k", Value.vstr "1")], [("k", Value.vstr "2")]]) ∧
    dlookup "k" (merge_dicts [[("k", Value.vstr "1")], [("k", Value.vstr "2")]]) =
      some (Value.vstr "2") := by
  refine ⟨merge_dicts_last_write_wins _ (by decide), ?_⟩
  decide

/-- C2 counterexample: `dicts2str` (the renderer defined in the repository's
`1_Getting_Started` notebook) does **not** skip empty-valued keys: on
`{"a": 1, "b": ""}` it renders the string `"-a 1 -b "`, which is `"-a 1"`
followed by the token for key `"b"` (namely `"-b "`), refuting "contains no
token for key b". -/
theorem dicts2str_keeps_empty_valued_keys :
    dicts2str [[("a", Value.vstr "1"), ("b", Value.vstr "")]] = "-a 1 -b " ∧
    "-a 1 -b " = "-a 1" ++ " " ++ entryToken ("b", Value.vstr "") := by
  constructor <;> rfl

/-- C2 amended: only the spec's `dict2str` (modelled from the spec, the
function itself is not under `src/`) skips keys whose value is empty or None,
rendering `{"a": 1, "b": ""}` as `"-a 1"` with no token for `"b"`; the
notebook-defined `dicts2str` renders every key, giving `"-a 1 -b "` (it skips
only empty dictionaries, not empty values). -/
theorem dict2str_skips_empty_values_dicts2str_does_not :
    dict2str [("a", Value.vstr "1"), ("b", Value.vstr "")] = "-a 1" ∧
    dicts2str [[("a", Value.vstr "1"), ("b", Value.vstr "")]] = "-a 1 -b " := by
  constructor <;> rfl

/-- C4: `dicts2str` of one dictionary is exactly the tokens `-k1 v1` … `-kn vn`
of its entries in insertion order joined by single spaces, each value rendered
by plain string interpolation; several (non-empty) dictionary arguments are
rendered in argument order and concatenated with a single space between
them. -/
theorem dicts2str_eq_specRenderArgs (args : List Dict) (h : ∀ d ∈ args, d ≠ []) :
    dicts2str args = specRenderArgs args := by
  unfold dicts2str specRenderArgs
  have hfil : args.filter (fun d => !d.isEmpty) = args := by
    rw [List.filter_eq_self]
    intro d hd
    simpa [List.isEmpty_iff] using h d hd
  rw [hfil]
  rfl

/-- C4 witness: two concrete one-entry dictionaries; the rendering is the
spec's token string `-a 1 -b 2`. -/
theorem dicts2str_eq_specRenderArgs_witness :
    dicts2str [[("a", Value.vstr "1")], [("b", Value.vstr "2")]] =
      specRenderArgs [[("a", Value.vstr "1")], [("b", Value.vstr "2")]] ∧
    dicts2str [[("a", Value.vstr "1")], [("b", Value.vstr "2")]] = "-a 1 -b 2" :=
  ⟨dicts2str_eq_specRenderArgs _ (by decide), by rfl⟩

/-- C8: the empty dictionary is an identity element for `dicts2str`: deleting
an empty-dictionary argument at any position leaves the rendered string
unchanged (so inserting one does too), and when every argument is empty the
result is the empty string. -/
theorem dicts2str_empty_dict_identity :
    (∀ l₁ l₂ : List Dict, dicts2str (l₁ ++ [] :: l₂) = dicts2str (l₁ ++ l₂)) ∧
    (∀ n : Nat, dicts2str (List.replicate n []) = "") := by
  constructor
  · intro l₁ l₂
    simp [dicts2str, List.filter_append, List.filter_cons]
  · intro n
    have hfil : (List.replicate n ([] : Dict)).filter (fun d => !d.isEmpty) = [] := by
      induction n with
      | zero => rfl
      | succ m ih => simp [List.replicate_succ, List.filter_cons, ih]
    simp [dicts2str, hfil]
    rfl

theorem sort_dict_by_key_eq_of_perm (d₁ d₂ : Dict) (hp : d₁.Perm d₂)
    (hnd : (d₁.map Prod.fst).Nodup) :
    sort_dict_by_key d₁ = sort_dict_by_key d₂ := by
  haveI : IsTotal (String × Value) (fun a b => a.1 ≤ b.1) := ⟨fun a b => le_total a.1 b.1⟩
  haveI : IsTrans (String × Value) (fun a b => a.1 ≤ b.1) :=
    ⟨fun _ _ _ hab hbc => le_trans hab hbc⟩
  haveI : IsAntisymm (String × Value) (fun a b => a.1 < b.1) :=
    ⟨fun _ _ h₁ h₂ => absurd (h₁.trans h₂) (lt_irrefl _)⟩
  have hperm : (sort_dict_by_key d₁).Perm (sort_dict_by_key d₂) :=
    ((List.perm_insertionSort _ d₁).trans hp).trans (List.perm_insertionSort _ d₂).symm
  have hnd₁ : ((sort_dict_by_key d₁).map Prod.fst).Nodup :=
    (((List.perm_insertionSort _ d₁).map Prod.fst).nodup_iff).mpr hnd
  have hnd₂ : ((sort_dict_by_key d₂).map Prod.fst).Nodup :=
    ((hperm.map Prod.fst).nodup_iff).mp hnd₁
  have hle₁ := List.sorted_insertionSort (fun a b : String × Value => a.1 ≤ b.1) d₁
  have hle₂ := List.sorted_insertionSort (fun a b : String × Value => a.1 ≤ b.1) d₂
  have hne₁ : (sort_dict_by_key d₁).Pairwise (fun a b => a.1 ≠ b.1) :=
    List.pairwise_map.mp hnd₁
  have hne₂ : (sort_dict_by_key d₂).Pairwise (fun a b => a.1 ≠ b.1) :=
    List.pairwise_map.mp hnd₂
  have hlt₁ : (sort_dict_by_key d₁).Pairwise (fun a b => a.1 < b.1) :=
    (hle₁.and hne₁).imp (fun h => lt_of_le_of_ne h.1 h.2)
  have hlt₂ : (sort_dict_by_key d₂).Pairwise (fun a b => a.1 < b.1) :=
    (hle₂.and hne₂).imp (fun h => lt_of_le_of_ne h.1 h.2)
  exact List.eq_of_perm_of_sorted hperm hlt₁ hlt₂

/-- C5: sorting by key makes the rendering reproducible: two dictionaries
that are equal as key-value mappings (permutations of each other, keys unique)
but were built in different insertion orders render to the identical string
after `sort_dict_by_key`, and the rendered key order is the ascending key
order. -/
theorem sort_dict_by_key_reproducible (d₁ d₂ : Dict) (hp : d₁.Perm d₂)
    (hnd : (d₁.map Prod.fst).Nodup) :
    dict2str (sort_dict_by_key d₁) = dict2str (sort_dict_by_key d₂) ∧
    ((sort_dict_by_key d₁).map Prod.fst).Sorted (fun a b => a ≤ b) := by
  constructor
  · rw [sort_dict_by_key_eq_of_perm d₁ d₂ hp hnd]
  · haveI : IsTotal (String × Value) (fun a b => a.1 ≤ b.1) := ⟨fun a b => le_total a.1 b.1⟩
    haveI : IsTrans (String × Value) (fun a b => a.1 ≤ b.1) :=
      ⟨fun _ _ _ hab hbc => le_trans hab hbc⟩
    exact List.pairwise_map.mpr
      (List.sorted_insertionSort (fun a b : String × Value => a.1 ≤ b.1) d₁)

/-- C5 witness: the same two-entry mapping inserted in the two possible
orders renders identically after sorting by key. -/
theorem sort_dict_by_key_reproducible_witness :
    dict2str (sort_dict_by_key [("b", Value.vstr "2"), ("a", Value.vstr "1")]) =
      dict2str (sort_dict_by_key [("a", Value.vstr "1"), ("b", Value.vstr "2")]) ∧
    ((sort_dict_by_key [("b", Value.vstr "2"), ("a", Value.vstr "1")]).map Prod.fst).Sorted
      (fun a b => a ≤ b) :=
  sort_dict_by_key_reproducible _ _ (by decide) (by decide)

/-- The successive `run_dict` states of the sector run's inner loop (one per
parameter sample), together with the final dictionary handed to the next
domain. -/
def sectorStatesInner (resolution name : String) :
    Dict → Nat → List Dict → List Dict × Dict
  | d, _, [] => ([], d)
  | d, s_id, sample :: rest =>
      let d2 := dictUpdate (dictUpdate d sample) (sectorFiles resolution name s_id)
      let next := sectorStatesInner resolution name d2 (s_id + 1) rest
      (d2 :: next.1, next.2)

/-- The successive `run_dict` states of the sector run, across all domains. -/
def sectorStates (resolution : String) : Dict → List String → List Dict → List Dict
  | _, [], _ => []
  | d, name :: names, samples =>
      let inner := sectorStatesInner resolution name d 0 samples
      inner.1 ++ sectorStates resolution inner.2 names samples

theorem greenlandRun_fst (shell : String → Int) (res s f : String) (n : Nat) (d : Dict)
    (pairs : List (String × String)) :
    (greenlandRun shell res s f n d pairs).map Prod.fst =
      (greenlandStates res s f d pairs).map (mkCmd n) := by
  induction pairs generalizing d with
  | nil => rfl
  | cons p rest ih => simp [greenlandRun, greenlandStates, ih]

theorem greenlandRun_length (shell : String → Int) (res s f : String) (n : Nat) (d : Dict)
    (pairs : List (String × String)) :
    (greenlandRun shell res s f n d pairs).length = pairs.length := by
  induction pairs generalizing d with
  | nil => rfl
  | cons p rest ih => simp [greenlandRun, ih]

theorem sectorRunInner_fst (shell : String → Int) (res name : String) (n : Nat) (d : Dict)
    (i : Nat) (samples : List Dict) :
    (sectorRunInner shell res name n d i samples).1.map Prod.fst =
      (sectorStatesInner res name d i samples).1.map (mkCmd n) ∧
    (sectorRunInner shell res name n d i samples).2 =
      (sectorStatesInner res name d i samples).2 ∧
    (sectorRunInner shell res name n d i samples).1.length = samples.length := by
  induction samples generalizing d i with
  | nil => exact ⟨rfl, rfl, rfl⟩
  | cons sample rest ih =>
      have h := ih (dictUpdate (dictUpdate d sample) (sectorFiles res name i)) (i + 1)
      simp only [sectorRunInner, sectorStatesInner, List.map_cons, List.length_cons]
      exact ⟨by rw [h.1], h.2.1, by rw [h.2.2]⟩

theorem sectorRun_fst (shell : String → Int) (res : String) (n : Nat) (d : Dict)
    (domains : List String) (samples : List Dict) :
    (sectorRun shell res n d domains samples).map Prod.fst =
      (sectorStates res d domains samples).map (mkCmd n) := by
  induction domains generalizing d with
  | nil => rfl
  | cons name names ih =>
      have h := sectorRunInner_fst shell res name n d 0 samples
      simp only [sectorRun, sectorStates, List.map_append]
      rw [h.1, h.2.1, ih]

theorem sectorRun_length (shell : String → Int) (res : String) (n : Nat) (d : Dict)
    (domains : List String) (samples : List Dict) :
    (sectorRun shell res n d domains samples).length =
      domains.length * samples.length := by
  induction domains generalizing d with
  | nil => simp [sectorRun]
  | cons name names ih =>
      have h := sectorRunInner_fst shell res name n d 0 samples
      simp only [sectorRun, List.length_append, List.length_cons]
      rw [h.2.2, ih]
      ring

/-- The command string the `1_Getting_Started` notebook hands to the shell
via `!$f`: a hard-coded literal (its double spaces included), assigned to `f`
directly, not built from any dictionary. -/
def gettingStartedCmd : String :=
  "mpirun -np 8 pism -bootstrap  -time.calendar standard -time.start 2008-01-01 -time.end 2018-01-01 -surface.models ismip6 -surface.ismip6.reference_file g1200m_id_BAYES-MEDIAN_1980-1-1_1984-12-31.nc -surface.ismip6.file MARv3.9_ACCESS1.3-rcp85_climate_1960-2100_v1.nc  -i g1200m_id_BAYES-MEDIAN_1980-1-1_1984-12-31.nc  -input.regrid.file g1200m_id_BAYES-MEDIAN_1980-1-1_1984-12-31.nc -input.regrid.vars litho_temp,enthalpy,age,tillwat,bmelt,ice_area_specific_volume,thk -grid.file pism-bedmachine.nc -grid.dx 3600m -grid.dy 3600m -grid.Mz 101 -grid.Lz 4000 -grid.Mbz 11 -grid.Lbz 1000"

/-- The flag portion of `gettingStartedCmd` (everything after
`"mpirun -np 8 pism "`); its first flag is `-bootstrap`. -/
def gettingStartedFlags : String :=
  "-bootstrap  -time.calendar standard -time.start 2008-01-01 -time.end 2018-01-01 -surface.models ismip6 -surface.ismip6.reference_file g1200m_id_BAYES-MEDIAN_1980-1-1_1984-12-31.nc -surface.ismip6.file MARv3.9_ACCESS1.3-rcp85_climate_1960-2100_v1.nc  -i g1200m_id_BAYES-MEDIAN_1980-1-1_1984-12-31.nc  -input.regrid.file g1200m_id_BAYES-MEDIAN_1980-1-1_1984-12-31.nc -input.regrid.vars litho_temp,enthalpy,age,tillwat,bmelt,ice_area_specific_volume,thk -grid.file pism-bedmachine.nc -grid.dx 3600m -grid.dy 3600m -grid.Mz 101 -grid.Lz 4000 -grid.Mbz 11 -grid.Lbz 1000"

/-- `grid_params` of the `1_Getting_Started` notebook. -/
def gettingStartedGridParams : Dict :=
  [("grid.dx", Value.vstr "3600m"),
   ("grid.dy", Value.vstr "3600m"),
   ("grid.Mz", Value.vstr "101"),
   ("grid.Lz", Value.vstr "4000"),
   ("grid.Mbz", Value.vstr "11"),
   ("grid.Lbz", Value.vstr "1000"),
   ("input.regrid.vars",
     Value.vstr "litho_temp,enthalpy,age,tillwat,bmelt,ice_area_specific_volume,thk")]

/-- `time_params` of the `1_Getting_Started` notebook. -/
def gettingStartedTimeParams : Dict :=
  [("time.start", Value.vstr "2015-01-01"),
   ("time.end", Value.vstr "2099-31-12")]

/-- `climate_params` of the `1_Getting_Started` notebook. -/
def gettingStartedClimateParams : Dict :=
  [("surface.models", Value.vstr "ismip6"),
   ("surface.ismip6.reference_file",
     Value.vstr "g1200m_id_BAYES-MEDIAN_1980-1-1_1984-12-31.nc"),
   ("surface.ismip6.file",
     Value.vstr "MARv3.9_ACCESS1.3-rcp85_climate_1960-2100_v1.nc")]

/-- The first `run_dict.update` of the MISMIP+ notebook after the initial
merge: switch to the Blatter stress balance for a 100 a higher-order run. -/
def mismipUpdateHO (resolution : String) (run_length : Nat)
    (infile extra state : String) : Dict :=
  [("time.run_length", Value.vstr (toString run_length)),
   ("grid.dx", Value.vstr resolution),
   ("grid.dy", Value.vstr resolution),
   ("output.extra.file", Value.vstr extra),
   ("output.extra.times", Value.vstr "1day"),
   ("output.file", Value.vstr state),
   ("stress_balance.model", Value.vstr "blatter"),
   ("i", Value.vstr infile)]

/-- The second `run_dict.update` of the MISMIP+ notebook: switch the ocean
model to PICO (the source's key `time.run_lenght` typo is kept verbatim). -/
def mismipUpdatePico (resolution : String) (run_length : Nat)
    (infile extra state : String) : Dict :=
  [("ocean.models", Value.vstr "pico"),
   ("ocean.pico.file", Value.vstr "pico.nc"),
   ("ocean.pico.heat_exchange_coefficent", Value.vstr "0.00163"),
   ("ocean.pico.number_of_boxes", Value.vstr "5"),
   ("ocean.pico.overturning_coefficent", Value.vstr "1000000.0"),
   ("ocean.pico.continental_shelf_depth", Value.vstr "-720"),
   ("time.run_lenght", Value.vstr (toString run_length)),
   ("grid.dx", Value.vstr resolution),
   ("grid.dy", Value.vstr resolution),
   ("output.extra.file", Value.vstr extra),
   ("output.extra.times", Value.vstr "1year"),
   ("output.file", Value.vstr state),
   ("i", Value.vstr infile)]

/-- The third `run_dict.update` of the MISMIP+ notebook: back to the SSA
stress balance. -/
def mismipUpdateSSA (resolution : String) (run_length : Nat)
    (infile extra state : String) : Dict :=
  [("time.run_length", Value.vstr (toString run_length)),
   ("grid.dx", Value.vstr resolution),
   ("grid.dy", Value.vstr resolution),
   ("output.extra.file", Value.vstr extra),
   ("output.extra.times", Value.vstr "1year"),
   ("output.file", Value.vstr state),
   ("stress_balance.model", Value.vstr "ssa"),
   ("i", Value.vstr infile)]

/-- The `run_dict` state at the MISMIP+ notebook's `!$cmd` cell: the merged
initial `run_dict` (`d0`) after the higher-order, PICO and SSA update cells,
with the concrete file names those cells construct. -/
def mismipFinalDict (d0 : Dict) : Dict :=
  dictUpdate
    (dictUpdate
      (dictUpdate d0
        (mismipUpdateHO "2km" 100 "mismip+/state_g2km_5000a.nc"
          "mismip+/spatial_g2km_100a_ho.nc" "mismip+/state_g2km_100a_ho.nc"))
      (mismipUpdatePico "1km" 100 "mismip+/state_g2km_100a_ho.nc"
        "mismip+_pico/spatial_g1km_100a.nc" "mismip+_pico/state_g1km_100a.nc"))
    (mismipUpdateSSA "1km" 100 "mismip+_pico/state_g1km_100a.nc"
      "mismip+_pico/spatial_g1km_100a.nc" "mismip+_pico/state_g1km_100a.nc")

/-- The single shell invocation of the MISMIP+ notebook:
`run_str = dict2str(sort_dict_by_key(run_dict))`,
`cmd = f"mpirun -np {n} pism " + run_str`, `!$cmd`. -/
def mismipRun (shell : String → Int) (n : Nat) (d0 : Dict) : String × Int :=
  let cmd := mkCmd n (mismipFinalDict d0)
  (cmd, shell cmd)

set_option maxRecDepth 8192 in
/-- C6 counterexample: the `1_Getting_Started` notebook hands the shell (via
`!$f`) the hard-coded command `gettingStartedCmd`, whose flag portion starts
with the flag `-bootstrap`; yet no configuration dictionary of that notebook —
`grid_params`, `time_params`, `climate_params`, singly or merged — binds the
key `bootstrap`, and the command differs from the prefix followed by the
rendering of the merged dictionaries.  So this shell-handed simulation command
is not derived from the merged configuration dictionary, and some of its flags
come from outside every such dictionary. -/
theorem gettingStarted_shell_cmd_hard_coded :
    gettingStartedCmd = "mpirun -np " ++ toString 8 ++ " pism " ++ gettingStartedFlags ∧
    (dlookup "bootstrap" gettingStartedGridParams = none ∧
      dlookup "bootstrap" gettingStartedTimeParams = none ∧
      dlookup "bootstrap" gettingStartedClimateParams = none ∧
      dlookup "bootstrap" (merge_dicts [gettingStartedGridParams, gettingStartedTimeParams,
        gettingStartedClimateParams]) = none) ∧
    gettingStartedCmd ≠ "mpirun -np " ++ toString 8 ++ " pism " ++
      dict2str (merge_dicts [gettingStartedGridParams, gettingStartedTimeParams,
        gettingStartedClimateParams]) := by
  refine ⟨by decide, ⟨by decide, by decide, by decide, by decide⟩, by decide⟩

/-- C6 amended: every command handed to the shell by the Greenland run loop,
the sector run loop and the MISMIP+ notebook's run cell is exactly the prefix
`"mpirun -np "`, the process count, `" pism "`, and the flag string rendered
from the merged, key-sorted configuration dictionary of that invocation — and
nothing else; the sole exception is the `1_Getting_Started` notebook's `!$f`,
which runs the hard-coded literal `gettingStartedCmd` embedded above instead
of a dictionary-derived command. -/
theorem run_loop_and_mismip_cmds_from_dict (shell : String → Int) (res s f : String)
    (n : Nat) (d : Dict) (pairs : List (String × String)) (domains : List String)
    (samples : List Dict) (d0 : Dict) :
    (greenlandRun shell res s f n d pairs).map Prod.fst =
      (greenlandStates res s f d pairs).map
        (fun rd => "mpirun -np " ++ toString n ++ " pism " ++ dict2str (sort_dict_by_key rd)) ∧
    (sectorRun shell res n d domains samples).map Prod.fst =
      (sectorStates res d domains samples).map
        (fun rd => "mpirun -np " ++ toString n ++ " pism " ++ dict2str (sort_dict_by_key rd)) ∧
    (mismipRun shell n d0).1 =
      "mpirun -np " ++ toString n ++ " pism " ++
        dict2str (sort_dict_by_key (mismipFinalDict d0)) :=
  ⟨greenlandRun_fst shell res s f n d pairs, sectorRun_fst shell res n d domains samples, rfl⟩

/-- C7: the run loops are fire-and-forget: the sequence of commands handed to
the shell is independent of the shell's exit statuses (no inspection, no
raising, no retry), and there is exactly one invocation per loop iteration,
so execution proceeds unconditionally to the next iteration. -/
theorem shell_status_never_inspected (shell shell' : String → Int) (res s f : String)
    (n : Nat) (d : Dict) (pairs : List (String × String)) (domains : List String)
    (samples : List Dict) :
    ((greenlandRun shell res s f n d pairs).map Prod.fst =
        (greenlandRun shell' res s f n d pairs).map Prod.fst ∧
      (greenlandRun shell res s f n d pairs).length = pairs.length) ∧
    ((sectorRun shell res n d domains samples).map Prod.fst =
        (sectorRun shell' res n d domains samples).map Prod.fst ∧
      (sectorRun shell res n d domains samples).length =
        domains.length * samples.length) :=
  ⟨⟨(greenlandRun_fst shell res s f n d pairs).trans
      (greenlandRun_fst shell' res s f n d pairs).symm,
    greenlandRun_length shell res s f n d pairs⟩,
   ⟨(sectorRun_fst shell res n d domains samples).trans
      (sectorRun_fst shell' res n d domains samples).symm,
    sectorRun_length shell res n d domains samples⟩⟩

/-- Keep the configuration entries other than the two keys touched by the
Greenland loop's `run_dict.update`. -/
def configKeep (kv : String × Value) : Bool :=
  kv.1 != "surface.ismip6.file" && kv.1 != "output.extra.file"

theorem filter_configKeep_map_override (d e : Dict)
    (he : ∀ kv ∈ e, kv.1 = "surface.ismip6.file" ∨ kv.1 = "output.extra.file") :
    (d.map (fun kv => (kv.1, (dlookup kv.1 e).getD kv.2))).filter configKeep =
      d.filter configKeep := by
  induction d with
  | nil => rfl
  | cons kv rest ih =>
      simp only [List.map_cons, List.filter_cons]
      have hfst : configKeep (kv.1, (dlookup kv.1 e).getD kv.2) = configKeep kv := rfl
      rw [hfst, ih]
      by_cases hk : configKeep kv = true
      · rw [if_pos hk, if_pos hk]
        have hnone : dlookup kv.1 e = none := by
          rw [dlookup_eq_none_iff]
          intro hmem
          rcases List.mem_map.mp hmem with ⟨kv', hkv', hfstk⟩
          rcases he kv' hkv' with h | h <;>
            rw [h] at hfstk <;> simp [configKeep, ← hfstk] at hk
        rw [hnone]
        rfl
      · rw [if_neg hk, if_neg hk]

theorem filter_configKeep_dictUpdate (d e : Dict)
    (he : ∀ kv ∈ e, kv.1 = "surface.ismip6.file" ∨ kv.1 = "output.extra.file") :
    (dictUpdate d e).filter configKeep = d.filter configKeep := by
  unfold dictUpdate
  rw [List.filter_append]
  have happ : (e.filter (fun kv => (dlookup kv.1 d).isNone)).filter configKeep = [] := by
    rw [List.filter_eq_nil_iff]
    intro kv hkv
    rcases he kv (List.mem_of_mem_filter hkv) with h | h <;>
      simp [configKeep, h]
  rw [happ, List.append_nil, filter_configKeep_map_override d e he]

/-- C9: each iteration of the Greenland run loop changes only the keys
`surface.ismip6.file` and `output.extra.file` of `run_dict`: restricted to
every other key, each dictionary state reached inside the loop (and hence the
configuration serialized into that iteration's command) is identical to the
dictionary before the loop. -/
theorem greenland_loop_frame (res s f : String) (d : Dict)
    (pairs : List (String × String)) (di : Dict)
    (hmem : di ∈ greenlandStates res s f d pairs) :
    di.filter configKeep = d.filter configKeep := by
  induction pairs generalizing d with
  | nil => simp [greenlandStates] at hmem
  | cons p rest ih =>
      simp only [greenlandStates, List.mem_cons] at hmem
      have hupd : (dictUpdate d (greenlandUpdate res s f p.1 p.2)).filter configKeep =
          d.filter configKeep := by
        apply filter_configKeep_dictUpdate
        intro kv hkv
        simp only [greenlandUpdate, List.mem_cons, List.mem_singleton] at hkv
        rcases hkv with h | h | h
        · left; rw [h]
        · right; rw [h]
        · exact absurd h (by simp)
      rcases hmem with h | h
      · rw [h]; exact hupd
      · exact (ih _ h).trans hupd

/-- C9 witness: one concrete loop iteration over an initial dictionary with
an unrelated key `i`; the state after the update agrees with the initial
dictionary away from the two touched keys. -/
theorem greenland_loop_frame_witness :
    (dictUpdate [("i", Value.vstr "init.nc")]
        (greenlandUpdate "4500m" "2015-01-01" "2100-01-01" "26" "f26.nc")).filter configKeep =
      ([("i", Value.vstr "init.nc")] : Dict).filter configKeep :=
  greenland_loop_frame "4500m" "2015-01-01" "2100-01-01" _ [("26", "f26.nc")] _
    (by simp [greenlandStates])

theorem alignDown_dvd (delta a : Int) : delta ∣ alignDown delta a :=
  dvd_mul_right delta (a.ediv delta)

theorem alignUp_dvd (delta a : Int) : delta ∣ alignUp delta a :=
  (dvd_mul_right delta ((-a).ediv delta)).neg_right

theorem alignDown_le (delta a : Int) (h : 0 < delta) : alignDown delta a ≤ a := by
  have heq : delta * (a.ediv delta) + a.emod delta = a := Int.ediv_add_emod a delta
  have hnn : 0 ≤ a.emod delta := Int.emod_nonneg a (ne_of_gt h)
  unfold alignDown
  linarith

theorem le_alignUp (delta a : Int) (h : 0 < delta) : a ≤ alignUp delta a := by
  have hdown := alignDown_le delta (-a) h
  unfold alignDown at hdown
  unfold alignUp
  linarith

/-- C3 counterexample: at the domain notebook's own multiplier set and base
resolution, the `get_bounds` bound `9000` (for the extent `[100, 200]`, no
buffer) is aligned to the coarsest permitted spacing `60 * 150 = 9000` but is
*not* an integer multiple of `multiplier * base_resolution` for the permitted
multiplier `16` (`16 * 150 = 2400` does not divide `9000`). -/
theorem get_bounds_not_multiple_of_every_multiplier :
    (16 : Int) ∈ bedmachineMultipliers ∧
    (get_bounds 100 200 150 bedmachineMultipliers 0).2 = 9000 ∧
    ¬ ((16 * 150 : Int) ∣ (get_bounds 100 200 150 bedmachineMultipliers 0).2) := by
  refine ⟨by decide, by decide, fun h => ?_⟩
  rw [show (get_bounds 100 200 150 bedmachineMultipliers 0).2 = 9000 from by decide] at h
  omega

/-- C3 amended: each bound returned by `get_bounds` is an integer multiple of
the coarsest permitted grid spacing `max(multipliers) * base_resolution` —
hence of `multiplier * base_resolution` for every permitted multiplier whose
spacing divides the coarsest one — and the returned bounding box fully
contains the input coordinate extent, expanded outward and padded by the
buffer distance. -/
theorem get_bounds_aligned_and_contains (xmin xmax base buffer : Int)
    (mults : List Int) (m : Int) (_hm : m ∈ mults)
    (hpos : 0 < (mults.foldr max 1) * base)
    (hdvd : m * base ∣ (mults.foldr max 1) * base) :
    ((mults.foldr max 1) * base ∣ (get_bounds xmin xmax base mults buffer).1 ∧
      (mults.foldr max 1) * base ∣ (get_bounds xmin xmax base mults buffer).2) ∧
    (m * base ∣ (get_bounds xmin xmax base mults buffer).1 ∧
      m * base ∣ (get_bounds xmin xmax base mults buffer).2) ∧
    (get_bounds xmin xmax base mults buffer).1 ≤ xmin - buffer ∧
    xmax + buffer ≤ (get_bounds xmin xmax base mults buffer).2 := by
  have h1 : (mults.foldr max 1) * base ∣ (get_bounds xmin xmax base mults buffer).1 :=
    alignDown_dvd _ _
  have h2 : (mults.foldr max 1) * base ∣ (get_bounds xmin xmax base mults buffer).2 :=
    alignUp_dvd _ _
  exact ⟨⟨h1, h2⟩, ⟨hdvd.trans h1, hdvd.trans h2⟩,
    alignDown_le _ _ hpos, le_alignUp _ _ hpos⟩

/-- C3 amended witness: the concrete extent `[100, 200]` with the domain
notebook's multipliers, base resolution 150 m and no buffer, at the permitted
multiplier 30 (whose spacing 4500 divides the coarsest spacing 9000). -/
theorem get_bounds_aligned_and_contains_witness :
    (((bedmachineMultipliers.foldr max 1) * 150 ∣
        (get_bounds 100 200 150 bedmachineMultipliers 0).1 ∧
      (bedmachineMultipliers.foldr max 1) * 150 ∣
        (get_bounds 100 200 150 bedmachineMultipliers 0).2) ∧
    ((30 * 150 : Int) ∣ (get_bounds 100 200 150 bedmachineMultipliers 0).1 ∧
      (30 * 150 : Int) ∣ (get_bounds 100 200 150 bedmachineMultipliers 0).2) ∧
    (get_bounds 100 200 150 bedmachineMultipliers 0).1 ≤ 100 - 0 ∧
    200 + 0 ≤ (get_bounds 100 200 150 bedmachineMultipliers 0).2) :=
  get_bounds_aligned_and_contains 100 200 150 0 bedmachineMultipliers 30
    (by decide)
    (by rw [show (bedmachineMultipliers.foldr max 1 : Int) = 60 from by decide]; omega)
    (by rw [show (bedmachineMultipliers.foldr max 1 : Int) = 60 from by decide]; omega)

/-- C10: the MISMIP+ bed-shape functions are symmetric over the reals: `Bx` is
even (its polynomial has only even powers of `x / x_bar`), and `By` with the
default parameters is mirror-symmetric about the channel centerline
`y = Ly / 2`. -/
theorem mismip_bed_symmetric (x t : ℝ) :
    Bx (-x) = Bx x ∧ By (Ly / 2 + t) = By (Ly / 2 - t) := by
  constructor
  · unfold Bx
    ring
  · unfold By
    have e₁ : -2 * (Ly / 2 + t - Ly / 2 - wc) / fc = 2 * (Ly / 2 - t - Ly / 2 + wc) / fc := by
      ring
    have e₂ : 2 * (Ly / 2 + t - Ly / 2 + wc) / fc = -2 * (Ly / 2 - t - Ly / 2 - wc) / fc := by
      ring
    rw [e₁, e₂]
    ring

end PismTutorials

